import Mathlib

/-!
Shallow embedding of the hexvi viewport-cursor-buffer engine
(`src/widget.rs`, `src/util.rs`).

The engine's state is the open file (its bytes and its OS-level seek
position), the cursor grid position `(position_y, position_x)`, the window
buffer, and the geometry of the hex pane (`hex_win.get_max_y()`, the number
of visible rows).  Every fallible file-handle primitive (seek, read, write)
consults a schedule of injected IO faults, so that error paths of the Rust
code are expressible; the schedule `[]` is the run in which every IO
primitive succeeds.  The state also carries a ghost counter `scrolls` that
is incremented on every entry to `scroll`; it is not part of the Rust state
and exists only to count scroll invocations.

Machine integers: `u64` values are `Nat` with an explicit `% 2^64` at the
casts that can wrap, `u32` likewise with `% 2^32`, `i32`/`i64` are `Int`.
Rust release builds wrap on overflow, which is what the explicit mods model.
-/

namespace Hexvi

/-- `Direction` from `widget.rs`. -/
inductive Direction where
  | Up
  | Down
  | Left
  | Right
deriving DecidableEq, Repr

/-- Error kinds produced by the engine (`anyhow` messages in the source):
`outOfRange` for the two boundary bails, `cannotScrollH` for horizontal
scroll requests, `ioError` for a failing file-handle primitive. -/
inductive HErr where
  | outOfRange
  | cannotScrollH
  | ioError
deriving DecidableEq, Repr

/-- The state of `HexView` (plus the byte source it owns).
`data`/`fpos` are the file contents and its seek position, `faults` the
injected IO-fault schedule, `scrolls` the ghost scroll counter. -/
structure St where
  data : List Nat
  fpos : Nat
  faults : List Bool
  posY : Int
  posX : Int
  buffer : List Nat
  rows : Int
  scrolls : Nat
deriving DecidableEq, Repr

/-- A fallible, state-mutating engine operation (Rust `&mut self` +
`anyhow::Result`): the state is returned on success and on error. -/
abbrev M (α : Type) := St → Except HErr α × St

def mpure {α : Type} (a : α) : M α := fun s => (.ok a, s)

def merr {α : Type} (e : HErr) : M α := fun s => (.error e, s)

/-- Sequencing with early return, the `?` operator. -/
def mbind {α β : Type} (x : M α) (f : α → M β) : M β := fun s =>
  match x s with
  | (.error e, s') => (.error e, s')
  | (.ok a, s') => f a s'

/-- Pop the next entry of the IO-fault schedule (`false`, i.e. success,
once the schedule is exhausted). -/
def takeFault (s : St) : Bool × St :=
  match s.faults with
  | [] => (false, s)
  | b :: rest => (b, { s with faults := rest })

/-- `true` exactly on `Except.ok`. -/
def exOk {α : Type} : Except HErr α → Bool
  | .ok _ => true
  | .error _ => false

instance {ε α : Type} [DecidableEq ε] [DecidableEq α] : DecidableEq (Except ε α)
  | .ok a, .ok b =>
    if h : a = b then .isTrue (by rw [h])
    else .isFalse (fun hc => by cases hc; exact h rfl)
  | .ok _, .error _ => .isFalse (fun hc => by cases hc)
  | .error _, .ok _ => .isFalse (fun hc => by cases hc)
  | .error e, .error e' =>
    if h : e = e' then .isTrue (by rw [h])
    else .isFalse (fun hc => by cases hc; exact h rfl)

/-- Cast to `u64` (`as u64` on an `i64`): wraps modulo `2^64`. -/
def u64of (i : Int) : Nat := (i % (2 : Int) ^ 64).toNat

/-- Cast to `usize` (64-bit): reinterprets the integer modulo `2^64`, which
is also the effect of `as usize` on a negative `i32`/`i64` (sign extension
then reinterpretation). -/
def usizeOf (i : Int) : Nat := (i % (2 : Int) ^ 64).toNat

/-- Wrap an integer into the `i32` range (release-mode two's-complement
overflow of `i32` arithmetic). -/
def i32wrap (i : Int) : Int := (i + 2 ^ 31) % 2 ^ 32 - 2 ^ 31

/-- Reinterpret a `u64` value as `i64` (`as i64`). -/
def i64of (n : Nat) : Int :=
  if n % 2 ^ 64 < 2 ^ 63 then ((n % 2 ^ 64 : Nat) : Int)
  else ((n % 2 ^ 64 : Nat) : Int) - 2 ^ 64

/-! ### File-handle primitives

Each models one call on the `std::fs::File`; each can fail per the fault
schedule, and a failing primitive leaves the file state unchanged. -/

/-- `file.seek(SeekFrom::Current(0))`. -/
def fileSeekCur0 : M Nat := fun s =>
  let (flt, s) := takeFault s
  if flt then (.error .ioError, s) else (.ok s.fpos, s)

/-- `file.seek(SeekFrom::End(0))`: returns the file length and moves the
seek position there. -/
def fileSeekEnd0 : M Nat := fun s =>
  let (flt, s) := takeFault s
  if flt then (.error .ioError, s)
  else (.ok s.data.length, { s with fpos := s.data.length })

/-- `file.seek(SeekFrom::Start(off))`. -/
def fileSeekStart (off : Nat) : M Nat := fun s =>
  let (flt, s) := takeFault s
  if flt then (.error .ioError, s) else (.ok off, { s with fpos := off })

/-- `file.write_all(&[byte])`: overwrites the byte at the seek position
(zero-extending the file if the position is past the end, as the OS does)
and advances the seek position by one. -/
def fileWriteByte (byte : Nat) : M Unit := fun s =>
  let (flt, s) := takeFault s
  if flt then (.error .ioError, s)
  else
    let newData :=
      if s.fpos < s.data.length then s.data.set s.fpos (byte % 256)
      else s.data ++ List.replicate (s.fpos - s.data.length) 0 ++ [byte % 256]
    (.ok (), { s with data := newData, fpos := s.fpos + 1 })

/-- `file.read(&mut buf)` with a 512-byte buffer: returns the next
`min 512 (length - pos)` bytes and advances the seek position past them. -/
def fileRead512 : M (List Nat) := fun s =>
  let (flt, s) := takeFault s
  if flt then (.error .ioError, s)
  else
    let chunk := (s.data.drop s.fpos).take 512
    (.ok chunk, { s with fpos := s.fpos + chunk.length })

/-! ### `util::freadn_to_vec` -/

/-- The read loop of `freadn_to_vec` (`util.rs`): reads 512-byte chunks,
accumulating until EOF or until `size` bytes are gathered.  `fuel` is an
upper bound on the number of iterations; since each continuing iteration
grows `allRead` by at least one while keeping `allRead ≤ size`, any
`fuel > size - allRead` is enough, and callers pass `size + 1`. -/
def freadLoop (fuel : Nat) (size allRead : Nat) (acc : List Nat) (s : St) :
    Except HErr (List Nat) × St :=
  match fuel with
  | 0 => (.ok acc, s)
  | fuel + 1 =>
    match fileRead512 s with
    | (.error e, s') => (.error e, s')
    | (.ok chunk, s') =>
      if chunk.length = 0 then (.ok acc, s')
      else if allRead + chunk.length ≤ size then
        freadLoop fuel size (allRead + chunk.length) (acc ++ chunk) s'
      else (.ok (acc ++ chunk.take (size - allRead)), s')

/-- `util::freadn_to_vec(file, size)`: remembers the seek position, runs the
read loop, seeks back, and returns the bytes read. -/
def freadn_to_vec (size : Nat) : M (List Nat) :=
  mbind fileSeekCur0 fun orig =>
  mbind (freadLoop (size + 1) size 0 []) fun vec =>
  mbind (fileSeekStart orig) fun _ =>
  mpure vec

/-! ### `HexView` methods -/

/-- `HexView::get_seek`. -/
def get_seek : M Nat := fileSeekCur0

/-- `HexView::write_byte_at_offset`. -/
def write_byte_at_offset (byte : Nat) (offset : Nat) : M Nat :=
  mbind get_seek fun seek =>
  mbind (fileSeekStart offset) fun _ =>
  mbind (fileWriteByte byte) fun _ =>
  mbind (fileSeekStart seek) fun _ =>
  mpure 1

/-- `HexView::write_byte_at_position`: note the `Err(_) => return Ok(0)` on
the initial `get_seek`.  The target offset is
`seek + pos_y as u64 * 16 + pos_x as u64` in `u64` arithmetic. -/
def write_byte_at_position (byte : Nat) (pos_y pos_x : Int) : M Nat := fun s =>
  match get_seek s with
  | (.error _, s') => (.ok 0, s')
  | (.ok offset, s') =>
    write_byte_at_offset byte ((offset + u64of pos_y * 16 + u64of pos_x) % 2 ^ 64) s'

/-- `HexView::write_byte_at_cursor`. -/
def write_byte_at_cursor (byte : Nat) : M Nat := fun s =>
  write_byte_at_position byte s.posY s.posX s

/-- `HexView::read_buf`: reads `hex_win.get_max_y() * 16` bytes from the
current seek into the window buffer.  The byte count is an `i32` product
(wrapping modulo `2^32` in release builds) then cast `as usize`
(sign-extending a negative result). -/
def read_buf : M Unit := fun s =>
  (mbind (freadn_to_vec (usizeOf (i32wrap (s.rows * 16)))) fun vec => fun s' =>
    (.ok (), { s' with buffer := vec })) s

/-- `HexView::draw`: the painting itself goes to curses windows (external);
its only interaction with the engine state is the fallible `get_seek` used
for the offset column.  The text the hex pane receives per row is modelled
separately by `hexRowRender`. -/
def draw : M Unit := mbind get_seek fun _ => mpure ()

/-- `HexView::jump_to`. -/
def jump_to (offset : Nat) : M Nat :=
  mbind get_seek fun cur_seek =>
  mbind fileSeekEnd0 fun e =>
  if offset > e then
    mbind (fileSeekStart cur_seek) fun _ => merr .outOfRange
  else
    mbind (fileSeekStart offset) fun seek =>
    mbind read_buf fun _ =>
    mbind draw fun _ =>
    mpure seek

/-- `HexView::seek`. -/
def seek (offset : Int) : M Nat :=
  mbind
    (if offset < 0 then
      mbind get_seek fun cur_seek =>
      mbind fileSeekEnd0 fun e =>
      mbind (fileSeekStart cur_seek) fun _ =>
      mpure (u64of ((e : Int) + offset))
    else mpure (u64of offset)) fun real0 =>
  let remainder := real0 % 16
  let real_offset := real0 - remainder
  mbind (jump_to real_offset) fun _ => fun s =>
    (.ok real_offset, { s with posY := 0, posX := (remainder : Int) })

/-- `HexView::scroll`.  `count` is a `u32`, so `count * 16` wraps modulo
`2^32`.  The ghost counter `scrolls` is incremented on entry. -/
def scroll (direction : Direction) (count : Nat) : M Nat := fun s =>
  (mbind get_seek fun cur_seek =>
    let real_count := count * 16 % 2 ^ 32
    match direction with
    | .Down => jump_to ((cur_seek + real_count) % 2 ^ 64)
    | .Up =>
      if i64of cur_seek - (real_count : Int) < 0 then merr .outOfRange
      else jump_to (cur_seek - real_count)
    | .Left => merr .cannotScrollH
    | .Right => merr .cannotScrollH)
  { s with scrolls := s.scrolls + 1 }

/-- `HexView::hex_pos_to_cur`: grid position to hex-pane character
position; `x` is a nonnegative `i32`, and Rust `/` on `i32` truncates,
which agrees with `Int.div` here. -/
def hex_pos_to_cur (y x : Int) : Int × Int := (y, x * 2 + Int.tdiv x 2)

/-- `HexView::move_cursor_once`. -/
def move_cursor_once (direction : Direction) : M Nat :=
  mbind get_seek fun seek => fun s =>
  match direction with
  | .Up =>
    if s.posY = 0 then scroll .Up 1 s
    else (.ok seek, { s with posY := s.posY - 1 })
  | .Down =>
    if s.posY + 1 = s.rows then scroll .Down 1 s
    else (.ok seek, { s with posY := s.posY + 1 })
  | .Left =>
    if s.posX = 0 then
      if s.posY = 0 then
        match scroll .Up 1 s with
        | (.error e, s') => (.error e, s')
        | (.ok o, s') => (.ok o, { s' with posX := 16 - 1 })
      else (.ok seek, { s with posX := 16 - 1, posY := s.posY - 1 })
    else (.ok seek, { s with posX := s.posX - 1 })
  | .Right =>
    if s.posX = 16 - 1 then
      if s.posY + 1 = s.rows then
        match scroll .Down 1 s with
        | (.error e, s') => (.error e, s')
        | (.ok o, s') => (.ok o, { s' with posX := 0 })
      else (.ok seek, { s with posX := 0, posY := s.posY + 1 })
    else (.ok seek, { s with posX := s.posX + 1 })

/-- The `for _ in 0..count` loop of `HexView::move_cursor`; `?` aborts the
remaining iterations on the first error. -/
def move_cursor_loop (direction : Direction) : Nat → M Unit
  | 0 => mpure ()
  | n + 1 => mbind (move_cursor_once direction) fun _ => move_cursor_loop direction n

/-- `HexView::move_cursor` (the `mvchgat` highlight painting is external to
the engine state); `count` is an `i32`, and a nonpositive count runs zero
iterations. -/
def move_cursor (direction : Direction) (count : Int) : M Nat :=
  mbind (move_cursor_loop direction count.toNat) fun _ => mpure 0

/-! ### The hex pane text emitted by `draw`

For one row, `draw` iterates `pair` over `0..8`, printing a space before
every pair except the one starting the row, then two characters per byte:
its two hex digits, or two blanks when the index is past the buffer. -/

/-- One hex digit, lowercase as `{:02x}` prints. -/
def hexDigit (k : Nat) : Char :=
  if k < 10 then Char.ofNat (48 + k) else Char.ofNat (97 + (k - 10))

/-- `format!("{:02x}", byte)` for a `u8` (two digits). -/
def hexByte (n : Nat) : List Char := [hexDigit (n / 16), hexDigit (n % 16)]

/-- The two characters `draw` emits for buffer index `idx`: blanks when out
of bounds, else the byte's hex digits. -/
def hexCell (buffer : List Nat) (idx : Nat) : List Char :=
  if idx ≥ buffer.length then [' ', ' '] else hexByte (buffer.getD idx 0)

/-- The characters `draw` sends to the hex pane for row `row`, in emission
order. -/
def hexRowRender (buffer : List Nat) (row : Nat) : List Char :=
  (List.range 8).foldl (fun acc pair =>
    ((if (row * 16 + pair * 2) % 16 ≠ 0 then acc ++ [' '] else acc)
      ++ hexCell buffer (row * 16 + pair * 2))
      ++ hexCell buffer (row * 16 + pair * 2 + 1)) []

/-! ### The section 4.2 transition table, from the spec's words

`specStep` transcribes the single-step table of spec section 4.2 (one row
per table line, conditions as written there); `specMove` applies it
`count` times sequentially, a failed scroll aborting the remaining steps,
as section 4.2 prescribes for multi-step moves. -/

/-- Modelled from the spec, section 4.2: the single directional step of the
cursor state machine, as the transition table states it. -/
def specStep (direction : Direction) : M Unit := fun s =>
  match direction with
  | .Up =>
    if 0 < s.posY then (.ok (), { s with posY := s.posY - 1 })
    else (mbind (scroll .Up 1) fun _ => mpure ()) s
  | .Down =>
    if s.posY < s.rows - 1 then (.ok (), { s with posY := s.posY + 1 })
    else (mbind (scroll .Down 1) fun _ => mpure ()) s
  | .Left =>
    if 0 < s.posX then (.ok (), { s with posX := s.posX - 1 })
    else if 0 < s.posY then (.ok (), { s with posY := s.posY - 1, posX := 15 })
    else (mbind (scroll .Up 1) fun _ => fun s' => (.ok (), { s' with posX := 15 })) s
  | .Right =>
    if s.posX < 15 then (.ok (), { s with posX := s.posX + 1 })
    else if s.posY < s.rows - 1 then
      (.ok (), { s with posY := s.posY + 1, posX := 0 })
    else (mbind (scroll .Down 1) fun _ => fun s' => (.ok (), { s' with posX := 0 })) s

/-- Modelled from the spec, section 4.2: a multi-step move applies the
transition `count` times sequentially; a failed scroll at any step aborts
the remaining steps. -/
def specMove (direction : Direction) : Nat → M Unit
  | 0 => mpure ()
  | n + 1 => mbind (specStep direction) fun _ => specMove direction n

/-! ### Characterization of fault-free runs -/

theorem takeFault_nil {s : St} (h : s.faults = []) : takeFault s = (false, s) := by
  unfold takeFault
  rw [h]

theorem fileSeekCur0_nofault {s : St} (h : s.faults = []) :
    fileSeekCur0 s = (.ok s.fpos, s) := by
  simp [fileSeekCur0, takeFault_nil h]

theorem fileSeekEnd0_nofault {s : St} (h : s.faults = []) :
    fileSeekEnd0 s = (.ok s.data.length, { s with fpos := s.data.length }) := by
  simp [fileSeekEnd0, takeFault_nil h]

theorem fileSeekStart_nofault {s : St} (h : s.faults = []) (off : Nat) :
    fileSeekStart off s = (.ok off, { s with fpos := off }) := by
  simp [fileSeekStart, takeFault_nil h]

theorem fileRead512_nofault {s : St} (h : s.faults = []) :
    fileRead512 s = (.ok ((s.data.drop s.fpos).take 512),
      { s with fpos := s.fpos + ((s.data.drop s.fpos).take 512).length }) := by
  simp [fileRead512, takeFault_nil h]

theorem freadLoop_nofault :
    ∀ (fuel size allRead : Nat) (acc : List Nat) (s : St),
      s.faults = [] → size - allRead < fuel →
      ∃ p, freadLoop fuel size allRead acc s
        = (.ok (acc ++ (s.data.drop s.fpos).take (size - allRead)), { s with fpos := p })
  | 0, _, _, _, _, _, hfuel => absurd hfuel (Nat.not_lt_zero _)
  | fuel + 1, size, allRead, acc, s, h, hfuel => by
    rw [freadLoop, fileRead512_nofault h]
    by_cases h0 : ((s.data.drop s.fpos).take 512).length = 0
    · refine ⟨s.fpos + ((s.data.drop s.fpos).take 512).length, ?_⟩
      have hnil : s.data.drop s.fpos = [] := by
        rcases List.take_eq_nil_iff.mp (List.length_eq_zero.mp h0) with h512 | hl
        · omega
        · exact hl
      simp [hnil]
    · by_cases h1 : allRead + ((s.data.drop s.fpos).take 512).length ≤ size
      · have hf' : ({ s with fpos := s.fpos + ((s.data.drop s.fpos).take 512).length }
            : St).faults = [] := h
        obtain ⟨p, hp⟩ := freadLoop_nofault fuel size
          (allRead + ((s.data.drop s.fpos).take 512).length)
          (acc ++ (s.data.drop s.fpos).take 512)
          { s with fpos := s.fpos + ((s.data.drop s.fpos).take 512).length }
          hf' (by omega)
        refine ⟨p, ?_⟩
        simp only [h0, h1, if_true, if_false, ite_true, ite_false]
        rw [hp]
        dsimp only
        have hsplit : (s.data.drop s.fpos).take (size - allRead)
            = (s.data.drop s.fpos).take 512
              ++ ((s.data.drop s.fpos).drop ((s.data.drop s.fpos).take 512).length).take
                  (size - (allRead + ((s.data.drop s.fpos).take 512).length)) := by
          have hK : size - allRead
              = ((s.data.drop s.fpos).take 512).length
                + (size - (allRead + ((s.data.drop s.fpos).take 512).length)) := by omega
          rw [hK, List.take_add]
          congr 1
          rw [List.take_eq_take]
          simp only [List.length_take]
          omega
        rw [← List.drop_drop, hsplit, List.append_assoc]
      · refine ⟨s.fpos + ((s.data.drop s.fpos).take 512).length, ?_⟩
        simp only [h0, h1, if_true, if_false, ite_true, ite_false]
        have htk : ((s.data.drop s.fpos).take 512).take (size - allRead)
            = (s.data.drop s.fpos).take (size - allRead) := by
          rw [List.take_take]
          congr 1
          have hle512 : ((s.data.drop s.fpos).take 512).length ≤ 512 := by
            simp only [List.length_take]
            omega
          omega
        rw [htk]

theorem freadn_nofault {s : St} (h : s.faults = []) (size : Nat) :
    freadn_to_vec size s = (.ok ((s.data.drop s.fpos).take size), s) := by
  unfold freadn_to_vec
  obtain ⟨p, hp⟩ := freadLoop_nofault (size + 1) size 0 [] s h (by omega)
  have hf' : ({ s with fpos := p } : St).faults = [] := h
  simp [mbind, fileSeekCur0_nofault h, hp, fileSeekStart_nofault hf', mpure]

theorem read_buf_nofault {s : St} (h : s.faults = []) :
    read_buf s = (.ok (),
      { s with buffer := (s.data.drop s.fpos).take (usizeOf (i32wrap (s.rows * 16))) }) := by
  unfold read_buf
  simp [mbind, freadn_nofault h]

theorem jump_to_ok {s : St} (h : s.faults = []) {offset : Nat}
    (hle : offset ≤ s.data.length) :
    jump_to offset s = (.ok offset,
      { s with fpos := offset,
               buffer := (s.data.drop offset).take (usizeOf (i32wrap (s.rows * 16))) }) := by
  simp [jump_to, get_seek, draw, mbind, mpure, fileSeekCur0_nofault,
    fileSeekEnd0_nofault, fileSeekStart_nofault, read_buf_nofault, h,
    show ¬ s.data.length < offset by omega]

theorem jump_to_err {s : St} (h : s.faults = []) {offset : Nat}
    (hgt : s.data.length < offset) :
    jump_to offset s = (.error .outOfRange, s) := by
  obtain ⟨dt, fp, fl, py, px, bf, rws, sc⟩ := s
  simp only at h hgt
  subst h
  simp [jump_to, get_seek, mbind, merr, fileSeekCur0_nofault,
    fileSeekEnd0_nofault, fileSeekStart_nofault, hgt]

theorem seek_ok {s : St} (h : s.faults = []) (offset : Int) (real0 : Nat)
    (hreal : real0
      = if offset < 0 then u64of ((s.data.length : Int) + offset) else u64of offset)
    (hle : real0 - real0 % 16 ≤ s.data.length) :
    seek offset s = (.ok (real0 - real0 % 16),
      { s with fpos := real0 - real0 % 16,
               buffer := (s.data.drop (real0 - real0 % 16)).take (usizeOf (i32wrap (s.rows * 16))),
               posY := 0, posX := (real0 % 16 : Int) }) := by
  by_cases hneg : offset < 0 <;>
    simp [hneg] at hreal <;>
    subst hreal <;>
    simp [seek, hneg, mbind, mpure, get_seek, fileSeekCur0_nofault,
      fileSeekEnd0_nofault, fileSeekStart_nofault, h, jump_to_ok, hle]

theorem seek_err {s : St} (h : s.faults = []) (offset : Int) (real0 : Nat)
    (hreal : real0
      = if offset < 0 then u64of ((s.data.length : Int) + offset) else u64of offset)
    (hgt : s.data.length < real0 - real0 % 16) :
    seek offset s = (.error .outOfRange, s) := by
  obtain ⟨dt, fp, fl, py, px, bf, rws, sc⟩ := s
  simp only at h hreal hgt
  subst h
  by_cases hneg : offset < 0 <;>
    simp only [hneg, if_true, if_false, ite_true, ite_false] at hreal <;>
    subst hreal <;>
    simp [seek, hneg, mbind, mpure, merr, get_seek, fileSeekCur0_nofault,
      fileSeekEnd0_nofault, fileSeekStart_nofault, jump_to_err, hgt]

theorem scroll_up_err {s : St} (h : s.faults = []) (count : Nat)
    (hlt : i64of s.fpos - ((count * 16 % 2 ^ 32 : Nat) : Int) < 0) :
    scroll .Up count s = (.error .outOfRange, { s with scrolls := s.scrolls + 1 }) := by
  have hsg : ({ s with scrolls := s.scrolls + 1 } : St).faults = [] := h
  unfold scroll
  simp only [mbind, get_seek]
  rw [fileSeekCur0_nofault hsg]
  dsimp only
  rw [if_pos hlt]
  rfl

theorem scroll_up_ok {s : St} (h : s.faults = []) (count : Nat)
    (hge : ¬ i64of s.fpos - ((count * 16 % 2 ^ 32 : Nat) : Int) < 0)
    (hle : s.fpos - count * 16 % 2 ^ 32 ≤ s.data.length) :
    scroll .Up count s = (.ok (s.fpos - count * 16 % 2 ^ 32),
      { s with fpos := s.fpos - count * 16 % 2 ^ 32,
               buffer := (s.data.drop (s.fpos - count * 16 % 2 ^ 32)).take
                 (usizeOf (i32wrap (s.rows * 16))),
               scrolls := s.scrolls + 1 }) := by
  have hsg : ({ s with scrolls := s.scrolls + 1 } : St).faults = [] := h
  unfold scroll
  simp only [mbind, get_seek]
  rw [fileSeekCur0_nofault hsg]
  dsimp only
  rw [if_neg hge, jump_to_ok hsg hle]

theorem scroll_down_ok {s : St} (h : s.faults = []) (count : Nat)
    (hle : (s.fpos + count * 16 % 2 ^ 32) % 2 ^ 64 ≤ s.data.length) :
    scroll .Down count s = (.ok ((s.fpos + count * 16 % 2 ^ 32) % 2 ^ 64),
      { s with fpos := (s.fpos + count * 16 % 2 ^ 32) % 2 ^ 64,
               buffer := (s.data.drop ((s.fpos + count * 16 % 2 ^ 32) % 2 ^ 64)).take
                 (usizeOf (i32wrap (s.rows * 16))),
               scrolls := s.scrolls + 1 }) := by
  have hsg : ({ s with scrolls := s.scrolls + 1 } : St).faults = [] := h
  unfold scroll
  simp only [mbind, get_seek]
  rw [fileSeekCur0_nofault hsg]
  dsimp only
  rw [jump_to_ok hsg hle]

theorem scroll_down_err {s : St} (h : s.faults = []) (count : Nat)
    (hgt : s.data.length < (s.fpos + count * 16 % 2 ^ 32) % 2 ^ 64) :
    scroll .Down count s = (.error .outOfRange, { s with scrolls := s.scrolls + 1 }) := by
  have hsg : ({ s with scrolls := s.scrolls + 1 } : St).faults = [] := h
  unfold scroll
  simp only [mbind, get_seek]
  rw [fileSeekCur0_nofault hsg]
  dsimp only
  rw [jump_to_err hsg hgt]

/-- After any `scroll`, the cursor, geometry, file bytes, and (empty) fault
schedule are unchanged; only `fpos`, `buffer`, `scrolls` may move. -/
theorem scroll_fields {s : St} (h : s.faults = []) (d : Direction) (count : Nat) :
    (scroll d count s).2.posY = s.posY ∧ (scroll d count s).2.posX = s.posX
      ∧ (scroll d count s).2.rows = s.rows ∧ (scroll d count s).2.faults = []
      ∧ (scroll d count s).2.data = s.data := by
  cases d
  case Up =>
    by_cases hlt : i64of s.fpos - ((count * 16 % 2 ^ 32 : Nat) : Int) < 0
    · rw [scroll_up_err h count hlt]
      exact ⟨rfl, rfl, rfl, h, rfl⟩
    · by_cases hle : s.fpos - count * 16 % 2 ^ 32 ≤ s.data.length
      · rw [scroll_up_ok h count hlt hle]
        exact ⟨rfl, rfl, rfl, h, rfl⟩
      · have hgt : s.data.length < s.fpos - count * 16 % 2 ^ 32 := by omega
        have hsg : ({ s with scrolls := s.scrolls + 1 } : St).faults = [] := h
        unfold scroll
        simp only [mbind, get_seek]
        rw [fileSeekCur0_nofault hsg]
        dsimp only
        rw [if_neg hlt, jump_to_err hsg hgt]
        exact ⟨rfl, rfl, rfl, h, rfl⟩
  case Down =>
    by_cases hle : (s.fpos + count * 16 % 2 ^ 32) % 2 ^ 64 ≤ s.data.length
    · rw [scroll_down_ok h count hle]
      exact ⟨rfl, rfl, rfl, h, rfl⟩
    · rw [scroll_down_err h count (by omega)]
      exact ⟨rfl, rfl, rfl, h, rfl⟩
  case Left =>
    simp [scroll, mbind, merr, get_seek, fileSeekCur0_nofault, h]
  case Right =>
    simp [scroll, mbind, merr, get_seek, fileSeekCur0_nofault, h]

/-! ### Claim theorems -/

/-- C1: for every in-range target, `seek(target)` aligns the resolved offset
down to a multiple of 16 (`window_offset = resolved - resolved mod 16`, the
seek position after the call), sets the cursor to row 0, column
`resolved mod 16`, refills the buffer at the aligned offset, and the byte
under the cursor (`window_offset + 0*16 + col`) is the resolved target; for
`target = 16k` this gives `window_offset = 16k` and cursor `(0, 0)`. -/
theorem c1_seek_in_range (s : St) (target : Int) (resolved : Nat)
    (hf : s.faults = [])
    (hres : (resolved : Int)
      = if target < 0 then (s.data.length : Int) + target else target)
    (hlen : s.data.length < 2 ^ 64)
    (hle : resolved ≤ s.data.length) :
    seek target s = (.ok (resolved - resolved % 16),
      { s with fpos := resolved - resolved % 16,
               buffer := (s.data.drop (resolved - resolved % 16)).take
                 (usizeOf (i32wrap (s.rows * 16))),
               posY := 0, posX := ((resolved % 16 : Nat) : Int) })
    ∧ (resolved - resolved % 16) + resolved % 16 = resolved := by
  have hreal : resolved
      = if target < 0 then u64of ((s.data.length : Int) + target) else u64of target := by
    by_cases hneg : target < 0 <;>
      simp only [hneg, if_true, if_false, ite_true, ite_false] at hres ⊢ <;>
      unfold u64of <;>
      omega
  exact ⟨seek_ok hf target resolved hreal (by omega), by omega⟩

theorem c1_seek_in_range_witness :
    ((⟨List.replicate 20 5, 0, [], 0, 0, [], 2, 0⟩ : St).faults = []
      ∧ ((9 : Nat) : Int)
        = (if (9 : Int) < 0
           then ((⟨List.replicate 20 5, 0, [], 0, 0, [], 2, 0⟩ : St).data.length : Int) + 9
           else 9)
      ∧ (⟨List.replicate 20 5, 0, [], 0, 0, [], 2, 0⟩ : St).data.length < 2 ^ 64
      ∧ (9 : Nat) ≤ (⟨List.replicate 20 5, 0, [], 0, 0, [], 2, 0⟩ : St).data.length)
    ∧ (seek 9 ⟨List.replicate 20 5, 0, [], 0, 0, [], 2, 0⟩
        = (.ok 0, ⟨List.replicate 20 5, 0, [], 0, 9, List.replicate 20 5, 2, 0⟩)
      ∧ 0 + 9 = 9) :=
  ⟨⟨by decide, by decide, by decide, by decide⟩,
    c1_seek_in_range ⟨List.replicate 20 5, 0, [], 0, 0, [], 2, 0⟩ 9 9
      (by decide) (by decide) (by decide) (by decide)⟩

/-- C2 counterexample: on a 20-byte file, the resolved offset 25 exceeds the
file length and does not align to end-of-file (its aligned offset is 16, not
20), so the claim demands `OutOfRange`; the code instead succeeds, because
`jump_to` checks the already-aligned offset against the length. -/
theorem c2_counterexample :
    (seek 25 (⟨List.replicate 20 7, 0, [], 0, 0, [], 2, 0⟩ : St)).1 = .ok 16
    ∧ (25 : Nat) > 20 ∧ (25 : Nat) - 25 % 16 ≠ 20 := by decide

/-- C2 amended: `seek` fails with `OutOfRange` exactly when the aligned
resolved offset (`resolved - resolved mod 16`, the resolution of negative
targets wrapping modulo `2^64`) exceeds the file length, and on such a
failure the entire state (viewport and cursor included) is unchanged. -/
theorem c2_seek_out_of_range (s : St) (target : Int) (resolved : Nat)
    (hf : s.faults = [])
    (hres : resolved
      = if target < 0 then u64of ((s.data.length : Int) + target) else u64of target) :
    (s.data.length < resolved - resolved % 16 →
      seek target s = (.error .outOfRange, s))
    ∧ (resolved - resolved % 16 ≤ s.data.length →
      exOk (seek target s).1 = true) := by
  constructor
  · intro hgt
    exact seek_err hf target resolved hres hgt
  · intro hle
    rw [seek_ok hf target resolved hres hle]
    rfl

theorem c2_seek_out_of_range_witness :
    ((⟨List.replicate 20 7, 0, [], 0, 0, [], 2, 0⟩ : St).faults = []
      ∧ (40 : Nat)
        = (if (40 : Int) < 0
           then u64of (((⟨List.replicate 20 7, 0, [], 0, 0, [], 2, 0⟩ : St).data.length : Int) + 40)
           else u64of 40)
      ∧ (⟨List.replicate 20 7, 0, [], 0, 0, [], 2, 0⟩ : St).data.length < 40 - 40 % 16)
    ∧ seek 40 ⟨List.replicate 20 7, 0, [], 0, 0, [], 2, 0⟩
        = (.error .outOfRange, ⟨List.replicate 20 7, 0, [], 0, 0, [], 2, 0⟩) :=
  ⟨⟨by decide, by decide, by decide⟩,
    (c2_seek_out_of_range ⟨List.replicate 20 7, 0, [], 0, 0, [], 2, 0⟩ 40 40
      (by decide) (by decide)).1 (by decide)⟩

/-- C3 counterexample: on a 16-byte file (length already a multiple of 16)
the claim says `seek(-1)` sets `window_offset` to
`file_length - file_length mod 16 = 16`; the code resolves `-1` to byte 15
and aligns that, giving `window_offset = 0`. -/
theorem c3_counterexample :
    (seek (-1) (⟨List.replicate 16 7, 0, [], 0, 0, [], 2, 0⟩ : St)).1 = .ok 0
    ∧ (seek (-1) (⟨List.replicate 16 7, 0, [], 0, 0, [], 2, 0⟩ : St)).2.fpos = 0
    ∧ (0 : Nat) ≠ 16 - 16 % 16 := by decide

/-- C3 amended: on a non-empty file, `seek(-1)` resolves to the last byte
`file_length - 1`, sets `window_offset` to
`(file_length - 1) - ((file_length - 1) mod 16)` (which equals
`file_length - (file_length mod 16)` when the length is not a multiple of
16, and `file_length - 16` when it is), and the cursor lands on the last
valid byte: `window_offset + col = file_length - 1`. -/
theorem c3_seek_minus_one (s : St) (hf : s.faults = []) (hne : s.data ≠ [])
    (hlen : s.data.length < 2 ^ 64) :
    seek (-1) s = (.ok ((s.data.length - 1) - (s.data.length - 1) % 16),
      { s with fpos := (s.data.length - 1) - (s.data.length - 1) % 16,
               buffer := (s.data.drop ((s.data.length - 1) - (s.data.length - 1) % 16)).take
                 (usizeOf (i32wrap (s.rows * 16))),
               posY := 0, posX := (((s.data.length - 1) % 16 : Nat) : Int) })
    ∧ ((s.data.length - 1) - (s.data.length - 1) % 16) + (s.data.length - 1) % 16
        = s.data.length - 1 := by
  have hpos : 0 < s.data.length := List.length_pos.mpr hne
  have hreal : s.data.length - 1
      = if (-1 : Int) < 0 then u64of ((s.data.length : Int) + (-1)) else u64of (-1) := by
    rw [if_pos (by omega : (-1 : Int) < 0)]
    unfold u64of
    omega
  exact ⟨seek_ok hf (-1) (s.data.length - 1) hreal (by omega), by omega⟩

theorem c3_seek_minus_one_witness :
    ((⟨List.replicate 20 7, 0, [], 0, 0, [], 2, 0⟩ : St).faults = []
      ∧ (⟨List.replicate 20 7, 0, [], 0, 0, [], 2, 0⟩ : St).data ≠ []
      ∧ (⟨List.replicate 20 7, 0, [], 0, 0, [], 2, 0⟩ : St).data.length < 2 ^ 64)
    ∧ (seek (-1) ⟨List.replicate 20 7, 0, [], 0, 0, [], 2, 0⟩
        = (.ok 16, ⟨List.replicate 20 7, 16, [], 0, 3, List.replicate 4 7, 2, 0⟩)
      ∧ 16 + 3 = 19) :=
  ⟨⟨by decide, by decide, by decide⟩,
    c3_seek_minus_one ⟨List.replicate 20 7, 0, [], 0, 0, [], 2, 0⟩
      (by decide) (by decide) (by decide)⟩

/-- C4 counterexample: `count` is a `u32` and `count * 16` wraps modulo
`2^32` (release semantics; a debug build would abort instead of returning
`OutOfRange`).  With `count = 2^28` from `window_offset = 0`, the claim's
condition `window_offset - count*16 < 0` holds, yet the wrapped byte count
is 0 and `scroll(Up, 2^28)` succeeds. -/
theorem c4_counterexample :
    (scroll .Up 268435456 (⟨List.replicate 20 7, 0, [], 0, 0, [], 2, 0⟩ : St)).1
      = .ok 0
    ∧ ((0 : Int) - 268435456 * 16 < 0) := by decide

/-- C4 amended: provided `count * 16` does not overflow `u32`
(`count * 16 < 2^32`) and the seek position fits in `i64`, a rejected
scroll is atomic: `scroll(Up, count)` when `window_offset - count*16` would
be negative, and `scroll(Down, count)` when `window_offset + count*16`
would exceed the file length, fail with `OutOfRange` and leave the window
offset, buffer, cursor, and byte-source seek position exactly as before
(only the ghost scroll counter moves). -/
theorem c4_scroll_reject_atomic (s : St) (count : Nat) (hf : s.faults = [])
    (hcnt : count * 16 < 2 ^ 32) (hfp : s.fpos < 2 ^ 63) :
    ((s.fpos : Int) - count * 16 < 0 →
      scroll .Up count s = (.error .outOfRange, { s with scrolls := s.scrolls + 1 }))
    ∧ (s.data.length < s.fpos + count * 16 →
      scroll .Down count s = (.error .outOfRange, { s with scrolls := s.scrolls + 1 })) := by
  have h1 : count * 16 % 2 ^ 32 = count * 16 := Nat.mod_eq_of_lt hcnt
  have h2 : i64of s.fpos = (s.fpos : Int) := by
    unfold i64of
    rw [Nat.mod_eq_of_lt (by omega : s.fpos < 2 ^ 64)]
    rw [if_pos hfp]
  constructor
  · intro himp
    refine scroll_up_err hf count ?_
    rw [h1, h2]
    omega
  · intro himp
    refine scroll_down_err hf count ?_
    rw [h1, Nat.mod_eq_of_lt (by omega : s.fpos + count * 16 < 2 ^ 64)]
    omega

theorem c4_scroll_reject_atomic_witness :
    ((⟨List.replicate 20 7, 0, [], 0, 0, [], 2, 0⟩ : St).faults = []
      ∧ (1 : Nat) * 16 < 2 ^ 32
      ∧ (⟨List.replicate 20 7, 0, [], 0, 0, [], 2, 0⟩ : St).fpos < 2 ^ 63
      ∧ ((⟨List.replicate 20 7, 0, [], 0, 0, [], 2, 0⟩ : St).fpos : Int) - 1 * 16 < 0)
    ∧ scroll .Up 1 ⟨List.replicate 20 7, 0, [], 0, 0, [], 2, 0⟩
        = (.error .outOfRange, ⟨List.replicate 20 7, 0, [], 0, 0, [], 2, 1⟩) :=
  ⟨⟨by decide, by decide, by decide, by decide⟩,
    (c4_scroll_reject_atomic ⟨List.replicate 20 7, 0, [], 0, 0, [], 2, 0⟩ 1
      (by decide) (by decide) (by decide)).1 (by decide)⟩

/-- C6: `write_byte_at_offset` restores the recorded seek position only on
the success path; if the one-byte write itself fails (fault schedule:
`get_seek` and the seek to the target succeed, the write fails), the
function returns the error with the byte source's seek position left at the
write target (5) instead of the entry position (0), contradicting the
spec's requirement that every exit path restores the seek position. -/
theorem c6_write_error_leaves_seek_displaced :
    write_byte_at_offset 171 5
        (⟨List.replicate 10 1, 0, [false, false, true], 0, 0, [], 2, 0⟩ : St)
      = (.error .ioError, ⟨List.replicate 10 1, 5, [], 0, 0, [], 2, 0⟩)
    ∧ (5 : Nat) ≠ 0
    ∧ write_byte_at_offset 171 5 (⟨List.replicate 10 1, 0, [], 0, 0, [], 2, 0⟩ : St)
      = (.ok 1,
        ⟨[1, 1, 1, 1, 1, 171, 1, 1, 1, 1], 0, [], 0, 0, [], 2, 0⟩) := by decide

/-- C7: the 16-byte alignment invariant on the resting seek position is
broken by a failed write: from the aligned state `window_offset = 16`,
cursor column 5, a `write_byte_at_cursor` whose write step fails (fault
schedule: three seeks succeed, the write fails) exits with the seek
position at the unaligned write target `21`. -/
theorem c7_failed_write_breaks_alignment :
    (write_byte_at_cursor 171
        (⟨List.replicate 40 1, 16, [false, false, false, true], 0, 5, [], 2, 0⟩ : St)).1
      = .error .ioError
    ∧ (write_byte_at_cursor 171
        (⟨List.replicate 40 1, 16, [false, false, false, true], 0, 5, [], 2, 0⟩ : St)).2.fpos
      = 21
    ∧ (16 : Nat) ∣ 16 ∧ ¬ (16 : Nat) ∣ 21 := by decide

/-- C8: whenever the `i32` product `visible_rows * 16` does not overflow
(`0 ≤ rows` and `rows * 16 < 2^31`, true of every real terminal height),
`read_buf` reads up to `visible_rows * 16` bytes starting at the current
seek position (the window offset) into the buffer, so the buffer holds
exactly `min (visible_rows * 16) (file_length - window_offset)` bytes; a
short read near end-of-file is not an error, and the byte source's seek
position after the call equals its position before the call. -/
theorem c8_refill (s : St) (hf : s.faults = []) (hr0 : 0 ≤ s.rows)
    (hr1 : s.rows * 16 < 2 ^ 31) :
    read_buf s = (.ok (),
      { s with buffer := (s.data.drop s.fpos).take ((s.rows * 16).toNat) })
    ∧ ((read_buf s).2.buffer).length
        = min ((s.rows * 16).toNat) (s.data.length - s.fpos)
    ∧ (read_buf s).2.fpos = s.fpos := by
  have hu : usizeOf (i32wrap (s.rows * 16)) = (s.rows * 16).toNat := by
    unfold usizeOf i32wrap
    omega
  have hb := read_buf_nofault hf
  rw [hu] at hb
  refine ⟨hb, ?_, ?_⟩
  · rw [hb]
    simp [List.length_take, List.length_drop]
  · rw [hb]

theorem c8_refill_witness :
    ((⟨List.replicate 40 3, 16, [], 0, 0, [], 2, 0⟩ : St).faults = []
      ∧ (0 : Int) ≤ (⟨List.replicate 40 3, 16, [], 0, 0, [], 2, 0⟩ : St).rows
      ∧ (⟨List.replicate 40 3, 16, [], 0, 0, [], 2, 0⟩ : St).rows * 16 < 2 ^ 31)
    ∧ (read_buf ⟨List.replicate 40 3, 16, [], 0, 0, [], 2, 0⟩
        = (.ok (), ⟨List.replicate 40 3, 16, [], 0, 0, List.replicate 24 3, 2, 0⟩)
      ∧ ((read_buf (⟨List.replicate 40 3, 16, [], 0, 0, [], 2, 0⟩ : St)).2.buffer).length
          = min 32 24
      ∧ (read_buf (⟨List.replicate 40 3, 16, [], 0, 0, [], 2, 0⟩ : St)).2.fpos = 16) :=
  ⟨⟨by decide, by decide, by decide⟩,
    c8_refill ⟨List.replicate 40 3, 16, [], 0, 0, [], 2, 0⟩
      (by decide) (by decide) (by decide)⟩

/-- C10: when the initial `get_seek` of `write_byte_at_position` fails, the
function returns `Ok(0)` (success, zero bytes written) instead of
propagating the error, and the file bytes are untouched; the same holds for
`write_byte_at_cursor`, which delegates to it. -/
theorem c10_get_seek_error_gives_ok_zero (s : St) (rest : List Bool) (byte : Nat)
    (py px : Int) (hft : s.faults = true :: rest) :
    write_byte_at_position byte py px s = (.ok 0, { s with faults := rest })
    ∧ write_byte_at_cursor byte s = (.ok 0, { s with faults := rest })
    ∧ ({ s with faults := rest } : St).data = s.data := by
  have hstep : get_seek s = (.error .ioError, { s with faults := rest }) := by
    unfold get_seek fileSeekCur0 takeFault
    rw [hft]
    rfl
  refine ⟨?_, ?_, rfl⟩
  · unfold write_byte_at_position
    rw [hstep]
  · unfold write_byte_at_cursor write_byte_at_position
    rw [hstep]

theorem c10_get_seek_error_gives_ok_zero_witness :
    (⟨List.replicate 10 1, 3, [true], 0, 0, [], 2, 0⟩ : St).faults = [true]
    ∧ (write_byte_at_position 171 0 0 ⟨List.replicate 10 1, 3, [true], 0, 0, [], 2, 0⟩
        = (.ok 0, ⟨List.replicate 10 1, 3, [], 0, 0, [], 2, 0⟩)
      ∧ write_byte_at_cursor 171 ⟨List.replicate 10 1, 3, [true], 0, 0, [], 2, 0⟩
        = (.ok 0, ⟨List.replicate 10 1, 3, [], 0, 0, [], 2, 0⟩)
      ∧ (⟨List.replicate 10 1, 3, [], 0, 0, [], 2, 0⟩ : St).data
        = (⟨List.replicate 10 1, 3, [true], 0, 0, [], 2, 0⟩ : St).data) :=
  ⟨by decide,
    c10_get_seek_error_gives_ok_zero ⟨List.replicate 10 1, 3, [true], 0, 0, [], 2, 0⟩
      [] 171 0 0 (by decide)⟩

/-! ### Hex pane layout -/

theorem hexCell_pair (buffer : List Nat) (idx : Nat) :
    ∃ a c, hexCell buffer idx = [a, c] := by
  unfold hexCell hexByte
  split
  · exact ⟨' ', ' ', rfl⟩
  · exact ⟨_, _, rfl⟩

theorem hexRowRender_eq (buffer : List Nat) (row : Nat) :
    hexRowRender buffer row
      = hexCell buffer (row * 16) ++ (hexCell buffer (row * 16 + 1)
        ++ ([' '] ++ (hexCell buffer (row * 16 + 2) ++ (hexCell buffer (row * 16 + 3)
        ++ ([' '] ++ (hexCell buffer (row * 16 + 4) ++ (hexCell buffer (row * 16 + 5)
        ++ ([' '] ++ (hexCell buffer (row * 16 + 6) ++ (hexCell buffer (row * 16 + 7)
        ++ ([' '] ++ (hexCell buffer (row * 16 + 8) ++ (hexCell buffer (row * 16 + 9)
        ++ ([' '] ++ (hexCell buffer (row * 16 + 10) ++ (hexCell buffer (row * 16 + 11)
        ++ ([' '] ++ (hexCell buffer (row * 16 + 12) ++ (hexCell buffer (row * 16 + 13)
        ++ ([' '] ++ (hexCell buffer (row * 16 + 14)
        ++ hexCell buffer (row * 16 + 15)))))))))))))))))))))) := by
  have hs : ∀ k, k < 16 → (row * 16 + k) % 16 = k := fun k hk => by omega
  have hz : row * 16 % 16 = 0 := by omega
  unfold hexRowRender
  rw [show List.range 8 = [0, 1, 2, 3, 4, 5, 6, 7] from rfl]
  simp only [List.foldl_cons, List.foldl_nil]
  norm_num [hz, hs 2 (by norm_num), hs 4 (by norm_num), hs 6 (by norm_num),
    hs 8 (by norm_num), hs 10 (by norm_num), hs 12 (by norm_num), hs 14 (by norm_num),
    List.append_assoc, List.nil_append]

/-- C9: for every byte index `b < 16`, the cursor-to-column mapping
`hex_pos_to_cur` sends grid column `b` to screen column `2*b + b/2`
(so `col 0 = 0`, `col 1 = 2`, `col 2 = 5`, `col 3 = 7`, `col 4 = 10`), and
the two characters found at that column of the row text the drawing routine
emits are exactly the two characters it emitted for byte `b` of that row. -/
theorem c9_hex_columns (y : Int) (b : Nat) (hb : b < 16) (row : Nat)
    (buffer : List Nat) :
    hex_pos_to_cur y (b : Int) = (y, ((2 * b + b / 2 : Nat) : Int))
    ∧ ((hexRowRender buffer row).drop (2 * b + b / 2)).take 2
        = hexCell buffer (row * 16 + b)
    ∧ (hex_pos_to_cur 0 0).2 = 0 ∧ (hex_pos_to_cur 0 1).2 = 2
    ∧ (hex_pos_to_cur 0 2).2 = 5 ∧ (hex_pos_to_cur 0 3).2 = 7
    ∧ (hex_pos_to_cur 0 4).2 = 10 := by
  obtain ⟨a0, c0, h0⟩ := hexCell_pair buffer (row * 16)
  obtain ⟨a1, c1, h1⟩ := hexCell_pair buffer (row * 16 + 1)
  obtain ⟨a2, c2, h2⟩ := hexCell_pair buffer (row * 16 + 2)
  obtain ⟨a3, c3, h3⟩ := hexCell_pair buffer (row * 16 + 3)
  obtain ⟨a4, c4, h4⟩ := hexCell_pair buffer (row * 16 + 4)
  obtain ⟨a5, c5, h5⟩ := hexCell_pair buffer (row * 16 + 5)
  obtain ⟨a6, c6, h6⟩ := hexCell_pair buffer (row * 16 + 6)
  obtain ⟨a7, c7, h7⟩ := hexCell_pair buffer (row * 16 + 7)
  obtain ⟨a8, c8, h8⟩ := hexCell_pair buffer (row * 16 + 8)
  obtain ⟨a9, c9, h9⟩ := hexCell_pair buffer (row * 16 + 9)
  obtain ⟨a10, c10, h10⟩ := hexCell_pair buffer (row * 16 + 10)
  obtain ⟨a11, c11, h11⟩ := hexCell_pair buffer (row * 16 + 11)
  obtain ⟨a12, c12, h12⟩ := hexCell_pair buffer (row * 16 + 12)
  obtain ⟨a13, c13, h13⟩ := hexCell_pair buffer (row * 16 + 13)
  obtain ⟨a14, c14, h14⟩ := hexCell_pair buffer (row * 16 + 14)
  obtain ⟨a15, c15, h15⟩ := hexCell_pair buffer (row * 16 + 15)
  refine ⟨?_, ?_, by decide, by decide, by decide, by decide, by decide⟩
  · unfold hex_pos_to_cur
    refine Prod.ext rfl ?_
    show (b : Int) * 2 + Int.tdiv (b : Int) 2 = ((2 * b + b / 2 : Nat) : Int)
    interval_cases b <;> decide
  · rw [hexRowRender_eq buffer row, h0, h1, h2, h3, h4, h5, h6, h7, h8, h9, h10,
      h11, h12, h13, h14, h15]
    interval_cases b <;> (try simp only [Nat.add_zero]) <;>
      (first
        | rw [h0] | rw [h1] | rw [h2] | rw [h3] | rw [h4] | rw [h5] | rw [h6]
        | rw [h7] | rw [h8] | rw [h9] | rw [h10] | rw [h11] | rw [h12] | rw [h13]
        | rw [h14] | rw [h15]) <;>
      exact rfl

theorem c9_hex_columns_witness :
    (4 : Nat) < 16
    ∧ (hex_pos_to_cur 0 4 = (0, 10)
      ∧ ((hexRowRender [222, 173, 190, 239, 1, 2] 0).drop 10).take 2
          = hexCell [222, 173, 190, 239, 1, 2] 4
      ∧ (hex_pos_to_cur 0 0).2 = 0 ∧ (hex_pos_to_cur 0 1).2 = 2
      ∧ (hex_pos_to_cur 0 2).2 = 5 ∧ (hex_pos_to_cur 0 3).2 = 7
      ∧ (hex_pos_to_cur 0 4).2 = 10) :=
  ⟨by decide, c9_hex_columns 0 4 (by decide) 0 [222, 173, 190, 239, 1, 2]⟩

/-! ### Cursor state machine: code step vs spec table -/

/-- With a valid cursor (`0 ≤ posY < rows`, `0 ≤ posX < 16`) and fault-free
IO, `move_cursor_once` produces the same final state and the same
success/failure outcome as the spec's single-step transition table, and on
success the resulting cursor is again valid with an empty fault schedule. -/
theorem step_equiv (d : Direction) (s : St) (hf : s.faults = [])
    (hy0 : 0 ≤ s.posY) (hy1 : s.posY < s.rows) (hx0 : 0 ≤ s.posX) (hx1 : s.posX < 16) :
    (move_cursor_once d s).2 = (specStep d s).2
    ∧ exOk (move_cursor_once d s).1 = exOk (specStep d s).1
    ∧ (exOk (move_cursor_once d s).1 = true →
        ((move_cursor_once d s).2.faults = [] ∧ 0 ≤ (move_cursor_once d s).2.posY
          ∧ (move_cursor_once d s).2.posY < (move_cursor_once d s).2.rows
          ∧ 0 ≤ (move_cursor_once d s).2.posX
          ∧ (move_cursor_once d s).2.posX < 16)) := by
  have hsf := scroll_fields hf
  cases d
  case Up =>
    simp only [move_cursor_once, specStep, mbind, mpure, get_seek]
    rw [fileSeekCur0_nofault hf]
    dsimp only
    by_cases hy : s.posY = 0
    · rw [if_pos hy, if_neg (show ¬ 0 < s.posY by omega)]
      obtain ⟨hpY, hpX, hrows, hfl, hdata⟩ := hsf Direction.Up 1
      rcases hres : scroll Direction.Up 1 s with ⟨r, s'⟩
      rw [hres] at hpY hpX hrows hfl
      dsimp only at hpY hpX hrows hfl
      cases r
      · exact ⟨rfl, rfl, by intro hko; simp [exOk] at hko⟩
      · refine ⟨rfl, rfl, fun _ => ?_⟩
        dsimp only
        exact ⟨hfl, by omega, by omega, by omega, by omega⟩
    · rw [if_neg hy, if_pos (show 0 < s.posY by omega)]
      refine ⟨rfl, rfl, fun _ => ?_⟩
      dsimp only
      exact ⟨hf, by omega, by omega, by omega, by omega⟩
  case Down =>
    simp only [move_cursor_once, specStep, mbind, mpure, get_seek]
    rw [fileSeekCur0_nofault hf]
    dsimp only
    by_cases hy : s.posY + 1 = s.rows
    · rw [if_pos hy, if_neg (show ¬ s.posY < s.rows - 1 by omega)]
      obtain ⟨hpY, hpX, hrows, hfl, hdata⟩ := hsf Direction.Down 1
      rcases hres : scroll Direction.Down 1 s with ⟨r, s'⟩
      rw [hres] at hpY hpX hrows hfl
      dsimp only at hpY hpX hrows hfl
      cases r
      · exact ⟨rfl, rfl, by intro hko; simp [exOk] at hko⟩
      · refine ⟨rfl, rfl, fun _ => ?_⟩
        dsimp only
        exact ⟨hfl, by omega, by omega, by omega, by omega⟩
    · rw [if_neg hy, if_pos (show s.posY < s.rows - 1 by omega)]
      refine ⟨rfl, rfl, fun _ => ?_⟩
      dsimp only
      exact ⟨hf, by omega, by omega, by omega, by omega⟩
  case Left =>
    simp only [move_cursor_once, specStep, mbind, mpure, get_seek]
    rw [fileSeekCur0_nofault hf]
    dsimp only
    by_cases hx : s.posX = 0
    · rw [if_pos hx, if_neg (show ¬ 0 < s.posX by omega)]
      by_cases hy : s.posY = 0
      · rw [if_pos hy, if_neg (show ¬ 0 < s.posY by omega)]
        obtain ⟨hpY, hpX, hrows, hfl, hdata⟩ := hsf Direction.Up 1
        rcases hres : scroll Direction.Up 1 s with ⟨r, s'⟩
        rw [hres] at hpY hpX hrows hfl
        dsimp only at hpY hpX hrows hfl
        cases r
        · exact ⟨rfl, rfl, by intro hko; simp [exOk] at hko⟩
        · refine ⟨by dsimp only; norm_num, rfl, fun _ => ?_⟩
          dsimp only
          exact ⟨hfl, by omega, by omega, by omega, by omega⟩
      · rw [if_neg hy, if_pos (show 0 < s.posY by omega)]
        refine ⟨by dsimp only; norm_num, rfl, fun _ => ?_⟩
        dsimp only
        exact ⟨hf, by omega, by omega, by omega, by omega⟩
    · rw [if_neg hx, if_pos (show 0 < s.posX by omega)]
      refine ⟨rfl, rfl, fun _ => ?_⟩
      dsimp only
      exact ⟨hf, by omega, by omega, by omega, by omega⟩
  case Right =>
    simp only [move_cursor_once, specStep, mbind, mpure, get_seek]
    rw [fileSeekCur0_nofault hf]
    dsimp only
    by_cases hx : s.posX = 16 - 1
    · rw [if_pos hx, if_neg (show ¬ s.posX < 15 by omega)]
      by_cases hy : s.posY + 1 = s.rows
      · rw [if_pos hy, if_neg (show ¬ s.posY < s.rows - 1 by omega)]
        obtain ⟨hpY, hpX, hrows, hfl, hdata⟩ := hsf Direction.Down 1
        rcases hres : scroll Direction.Down 1 s with ⟨r, s'⟩
        rw [hres] at hpY hpX hrows hfl
        dsimp only at hpY hpX hrows hfl
        cases r
        · exact ⟨rfl, rfl, by intro hko; simp [exOk] at hko⟩
        · refine ⟨rfl, rfl, fun _ => ?_⟩
          dsimp only
          exact ⟨hfl, by omega, by omega, by omega, by omega⟩
      · rw [if_neg hy, if_pos (show s.posY < s.rows - 1 by omega)]
        refine ⟨rfl, rfl, fun _ => ?_⟩
        dsimp only
        exact ⟨hf, by omega, by omega, by omega, by omega⟩
    · rw [if_neg hx, if_pos (show s.posX < 15 by omega)]
      refine ⟨rfl, rfl, fun _ => ?_⟩
      dsimp only
      exact ⟨hf, by omega, by omega, by omega, by omega⟩

/-- The `move_cursor` iteration agrees with iterating the spec's table:
same final state and same success/failure outcome, for any step count. -/
theorem move_loop_equiv (d : Direction) :
    ∀ (n : Nat) (s : St), s.faults = [] → 0 ≤ s.posY → s.posY < s.rows →
      0 ≤ s.posX → s.posX < 16 →
      (move_cursor_loop d n s).2 = (specMove d n s).2
      ∧ exOk (move_cursor_loop d n s).1 = exOk (specMove d n s).1
  | 0, _, _, _, _, _, _ => ⟨rfl, rfl⟩
  | n + 1, s, hf, hy0, hy1, hx0, hx1 => by
    obtain ⟨hstate, hok, hinv⟩ := step_equiv d s hf hy0 hy1 hx0 hx1
    simp only [move_cursor_loop, specMove, mbind]
    rcases hres : move_cursor_once d s with ⟨r, s'⟩
    rcases hres' : specStep d s with ⟨r', s''⟩
    rw [hres] at hstate hok hinv
    rw [hres'] at hstate hok
    dsimp only at hstate hok hinv
    cases r <;> cases r'
    · exact ⟨hstate, rfl⟩
    · simp [exOk] at hok
    · simp [exOk] at hok
    · subst hstate
      obtain ⟨hf', hy0', hy1', hx0', hx1'⟩ := hinv rfl
      exact move_loop_equiv d n s' hf' hy0' hy1' hx0' hx1'

/-- C5: with a valid cursor and fault-free IO, `move_cursor(direction,
count)` is exactly `count` sequential applications of the section-4.2
single-step transition table, a failed scroll aborting the remaining steps
(same final state and same outcome as the spec-side iteration `specMove`);
and a single Right step at `(last_row, 15)` triggers exactly one
`scroll(Down, 1)` (ghost counter +1): on success the cursor becomes
`(last_row, 0)` with the viewport advanced 16 bytes and refilled, on
failure the whole state except the ghost counter is unchanged. -/
theorem c5_move_cursor_steps (d : Direction) (count : Int) (s : St)
    (hf : s.faults = []) (hy0 : 0 ≤ s.posY) (hy1 : s.posY < s.rows)
    (hx0 : 0 ≤ s.posX) (hx1 : s.posX < 16) :
    ((move_cursor d count s).2 = (specMove d count.toNat s).2
      ∧ exOk (move_cursor d count s).1 = exOk (specMove d count.toNat s).1)
    ∧ (s.posX = 15 → s.posY = s.rows - 1 → s.fpos < 2 ^ 63 →
        ((s.fpos + 16 ≤ s.data.length →
          move_cursor .Right 1 s = (.ok 0,
            { s with fpos := s.fpos + 16,
                     buffer := (s.data.drop (s.fpos + 16)).take (usizeOf (i32wrap (s.rows * 16))),
                     posX := 0, scrolls := s.scrolls + 1 }))
        ∧ (s.data.length < s.fpos + 16 →
          move_cursor .Right 1 s = (.error .outOfRange,
            { s with scrolls := s.scrolls + 1 })))) := by
  constructor
  · obtain ⟨h1, h2⟩ := move_loop_equiv d count.toNat s hf hy0 hy1 hx0 hx1
    simp only [move_cursor, mbind, mpure]
    rcases hres : move_cursor_loop d count.toNat s with ⟨r, s'⟩
    rw [hres] at h1 h2
    dsimp only at h1 h2
    cases r
    · exact ⟨h1, h2⟩
    · exact ⟨h1, h2⟩
  · intro hcx hcy hfp
    constructor
    · intro hbound
      have hsc := scroll_down_ok hf 1
        (by omega : (s.fpos + 1 * 16 % 2 ^ 32) % 2 ^ 64 ≤ s.data.length)
      have hT : (s.fpos + 1 * 16 % 2 ^ 32) % 2 ^ 64 = s.fpos + 16 := by omega
      rw [hT] at hsc
      simp only [move_cursor, move_cursor_loop, move_cursor_once, mbind, mpure, get_seek]
      rw [fileSeekCur0_nofault hf]
      dsimp only
      rw [if_pos (show s.posX = 16 - 1 by omega),
        if_pos (show s.posY + 1 = s.rows by omega), hsc]
    · intro hbound
      have hsc := scroll_down_err hf 1
        (by omega : s.data.length < (s.fpos + 1 * 16 % 2 ^ 32) % 2 ^ 64)
      simp only [move_cursor, move_cursor_loop, move_cursor_once, mbind, mpure, get_seek]
      rw [fileSeekCur0_nofault hf]
      dsimp only
      rw [if_pos (show s.posX = 16 - 1 by omega),
        if_pos (show s.posY + 1 = s.rows by omega), hsc]

theorem c5_move_cursor_steps_witness :
    ((⟨List.replicate 40 9, 16, [], 1, 15, [], 2, 0⟩ : St).faults = []
      ∧ (0 : Int) ≤ (⟨List.replicate 40 9, 16, [], 1, 15, [], 2, 0⟩ : St).posY
      ∧ (⟨List.replicate 40 9, 16, [], 1, 15, [], 2, 0⟩ : St).posY
          < (⟨List.replicate 40 9, 16, [], 1, 15, [], 2, 0⟩ : St).rows
      ∧ (0 : Int) ≤ (⟨List.replicate 40 9, 16, [], 1, 15, [], 2, 0⟩ : St).posX
      ∧ (⟨List.replicate 40 9, 16, [], 1, 15, [], 2, 0⟩ : St).posX < 16
      ∧ (⟨List.replicate 40 9, 16, [], 1, 15, [], 2, 0⟩ : St).posX = 15
      ∧ (⟨List.replicate 40 9, 16, [], 1, 15, [], 2, 0⟩ : St).posY
          = (⟨List.replicate 40 9, 16, [], 1, 15, [], 2, 0⟩ : St).rows - 1
      ∧ (⟨List.replicate 40 9, 16, [], 1, 15, [], 2, 0⟩ : St).fpos < 2 ^ 63
      ∧ (⟨List.replicate 40 9, 16, [], 1, 15, [], 2, 0⟩ : St).fpos + 16
          ≤ (⟨List.replicate 40 9, 16, [], 1, 15, [], 2, 0⟩ : St).data.length)
    ∧ move_cursor .Right 1 ⟨List.replicate 40 9, 16, [], 1, 15, [], 2, 0⟩
        = (.ok 0, ⟨List.replicate 40 9, 32, [], 1, 0, List.replicate 8 9, 2, 1⟩) :=
  ⟨⟨by decide, by decide, by decide, by decide, by decide, by decide, by decide,
    by decide, by decide⟩,
    (((c5_move_cursor_steps .Right 1 ⟨List.replicate 40 9, 16, [], 1, 15, [], 2, 0⟩
      (by decide) (by decide) (by decide) (by decide) (by decide)).2
      (by decide) (by decide) (by decide)).1 (by decide))⟩

end Hexvi
